import Mathlib

/-!
Verification of the flight_rs data server (src/flight_rs/src/main.rs): a
shallow embedding of its columnar batch builder, batch chunker, dataset
wiring and Flight service verbs, with theorems about the spec's claims.

Machine integers are modelled as `Nat`/`Int` with explicit wraparound where
the source casts (`i as i32`).  The external arrow / arrow_flight library is
not part of the repository; where its behaviour decides a claim it is
modelled from the spec's description of its interface boundary, and the
definition's doc comment says so.
-/

namespace FlightRs

/-- Two's-complement cast of a natural number to a signed 32-bit value,
the semantics of Rust's `i as i32` for `i : usize`: keep the low 32 bits and
reinterpret them as signed. -/
def i32cast (i : Nat) : Int :=
  let r : Nat := i % 2 ^ 32
  if r < 2 ^ 31 then (r : Int) else (r : Int) - 2 ^ 32

/-- Arrow data types; the source only ever uses `DataType::Int32`. -/
inductive DataType where
  | int32
deriving DecidableEq, Repr

/-- `arrow::datatypes::Field`: `Field::new(name, data_type, nullable)`. -/
structure Field where
  name : String
  dataType : DataType
  nullable : Bool
deriving DecidableEq, Repr

/-- `arrow::datatypes::Schema`: an ordered list of fields. -/
structure Schema where
  fields : List Field
deriving DecidableEq, Repr

/-- The arrow error type; the source's fallible calls return
`arrow::error::ArrowError`. -/
inductive ArrowError where
  | invalidArgument (msg : String)
deriving DecidableEq, Repr

/-- A record batch: a schema, one `Int32` column (list of signed 32-bit
values) per field, and the stored row count.  All arrays in the source are
`Int32Array`, so a column is a list of `Int`. -/
structure RecordBatch where
  schema : Schema
  columns : List (List Int)
  numRows : Nat
deriving DecidableEq, Repr

/-- Modelled from the spec: `RecordBatch::try_new` belongs to the external
arrow library (not in the repository); per the spec it fails with a
schema-construction error exactly when the column definitions are
inconsistent — here, when the number of columns disagrees with the schema or
the columns do not share one length.  (Column types cannot mismatch: every
array and every field in this program is `Int32`.) -/
def RecordBatch.try_new (schema : Schema) (columns : List (List Int)) :
    Except ArrowError RecordBatch :=
  if schema.fields.length ≠ columns.length then
    .error (.invalidArgument "number of columns must match number of fields")
  else
    let rowCount := ((columns.head?).map List.length).getD 0
    if columns.all (fun c => c.length = rowCount) then
      .ok ⟨schema, columns, rowCount⟩
    else
      .error (.invalidArgument "all columns must have the same length")

/-- `RecordBatch::slice(offset, length)`: a zero-copy view of `length` rows
starting at `offset`. -/
def RecordBatch.slice (b : RecordBatch) (offset length : Nat) : RecordBatch :=
  ⟨b.schema, b.columns.map (fun c => (c.drop offset).take length), length⟩

/-- The schema `generate_record_batch` builds for `n` columns: fields
`"col0"`, `"col1"`, … each `Int32` and non-nullable. -/
def mkSchema (n : Nat) : Schema :=
  ⟨(List.range n).map (fun i => ⟨"col" ++ toString i, .int32, false⟩)⟩

/-- `generate_record_batch(n, m)` from the source: builds the schema of `n`
`Int32` columns named by position, fills every column with
`(0..m).map(|i| i as i32)`, and calls `RecordBatch::try_new`. -/
def generate_record_batch (n m : Nat) : Except ArrowError RecordBatch :=
  let schema := mkSchema n
  let columns := (List.range n).map (fun _ => (List.range m).map i32cast)
  RecordBatch.try_new schema columns

/-- The loop of `generate_record_batches`, with explicit fuel: the source's
`while remaining_rows > 0` loop takes `batch_rows = min(remaining, maxRows)`
each round and decrements `remaining` by it.  `none` models running out of
fuel, i.e. an execution that has not terminated within `fuel` iterations. -/
def generateBatchesGo (n maxRows : Nat) :
    Nat → Nat → Option (Except ArrowError (List RecordBatch))
  | 0, remaining =>
    if remaining = 0 then some (.ok []) else none
  | fuel + 1, remaining =>
    if remaining = 0 then some (.ok [])
    else
      let batchRows := min remaining maxRows
      match generate_record_batch n batchRows with
      | .error e => some (.error e)
      | .ok b =>
        match generateBatchesGo n maxRows fuel (remaining - batchRows) with
        | none => none
        | some (.error e) => some (.error e)
        | some (.ok bs) => some (.ok (b :: bs))

/-- `generate_record_batches(n, total_rows)` with the `MAX_ROWS` value passed
explicitly (the source rereads the environment each iteration, but the value
is logically fixed for the process).  Fuel `totalRows` suffices whenever
`maxRows ≥ 1`, since each iteration removes at least one row; `none` means
the loop did not terminate. -/
def generate_record_batches (n totalRows maxRows : Nat) :
    Option (Except ArrowError (List RecordBatch)) :=
  generateBatchesGo n maxRows totalRows totalRows

/-- gRPC status codes, as used by the source through `tonic::Status`; only
the constructors the program touches are modelled, plus `ok` to keep the
"distinguishable from other failures" reading meaningful. -/
inductive StatusCode where
  | ok
  | internalError
  | unimplemented
deriving DecidableEq, Repr

/-- `tonic::Status`: a code plus a human-readable message. -/
structure Status where
  code : StatusCode
  message : String
deriving DecidableEq, Repr

/-- `Status::unimplemented(msg)`. -/
def Status.unimplemented (msg : String) : Status := ⟨.unimplemented, msg⟩

/-- `Status::internal(msg)`. -/
def Status.internal (msg : String) : Status := ⟨.internalError, msg⟩

/-- Opaque request payloads of the Flight protocol; the stubs never read
them, and `do_get` ignores the ticket, so their structure is irrelevant —
they are modelled as the raw bytes the wire would carry. -/
structure HandshakeRequest where
  payload : List Nat
deriving DecidableEq, Repr

/-- `arrow_flight::Criteria` (request of `list_flights`). -/
structure Criteria where
  expression : List Nat
deriving DecidableEq, Repr

/-- `arrow_flight::FlightDescriptor`. -/
structure FlightDescriptor where
  cmd : List Nat
  path : List String
deriving DecidableEq, Repr

/-- `arrow_flight::Ticket`: the opaque retrieval token. -/
structure Ticket where
  ticket : List Nat
deriving DecidableEq, Repr

/-- `arrow_flight::Action`. -/
structure Action where
  actionType : String
  body : List Nat
deriving DecidableEq, Repr

/-- The empty request message of `list_actions`. -/
structure EmptyRequest where
deriving DecidableEq, Repr

/-- Response payload placeholders: the stubs fail before ever constructing
one, so these types carry no data. -/
structure HandshakeResponse where
deriving DecidableEq, Repr

/-- `arrow_flight::FlightInfo` (never constructed by this program). -/
structure FlightInfo where
deriving DecidableEq, Repr

/-- `arrow_flight::PollInfo` (never constructed by this program). -/
structure PollInfo where
deriving DecidableEq, Repr

/-- `arrow_flight::SchemaResult` (never constructed by this program). -/
structure SchemaResult where
deriving DecidableEq, Repr

/-- `arrow_flight::PutResult` (never constructed by this program). -/
structure PutResult where
deriving DecidableEq, Repr

/-- `arrow_flight::ActionType` (never constructed by this program). -/
structure ActionType where
deriving DecidableEq, Repr

/-- `arrow_flight::Result` (never constructed by this program). -/
structure ActionResult where
deriving DecidableEq, Repr

/-- One frame of the streaming Flight wire format.  Modelled from the spec:
the external encoding of a `FlightData` message is out of scope, so a frame
is either the schema-description frame or the data frame of one batch. -/
inductive FlightFrame where
  | schemaFrame (s : Schema)
  | dataFrame (b : RecordBatch)
deriving DecidableEq, Repr

/-- The service state: the one large unchunked batch and the pre-chunked
sequence, both built once at startup.  The field name `chunked_bathes`
preserves the source's spelling. -/
structure FlightServiceImpl where
  large_batch : RecordBatch
  chunked_bathes : List RecordBatch
deriving DecidableEq, Repr

/-- Modelled from the spec: `FlightDataEncoderBuilder::build` is the
external arrow_flight encoder; per the spec's interface description it turns
an ordered batch stream into one schema-description frame followed by the
data frames in exactly the input order. -/
def encodeFlightData (schema : Schema) (batches : List RecordBatch) :
    List FlightFrame :=
  .schemaFrame schema :: batches.map .dataFrame

/-- `do_get` from the source: ignores the ticket, takes an identity slice
`b.slice(0, b.num_rows())` of every chunked batch in order, and hands the
stream to the encoder.  The handler itself always returns `Ok`; the spec
pins the dataset schema (shared by both representations) as the schema the
encoder describes. -/
def FlightServiceImpl.do_get (svc : FlightServiceImpl) (_request : Ticket) :
    Except Status (List FlightFrame) :=
  let batches := svc.chunked_bathes.map (fun b => b.slice 0 b.numRows)
  .ok (encodeFlightData svc.large_batch.schema batches)

/-- Stub: `handshake` returns `Status::unimplemented`. -/
def FlightServiceImpl.handshake (_svc : FlightServiceImpl)
    (_request : List HandshakeRequest) :
    Except Status (List HandshakeResponse) :=
  .error (Status.unimplemented "Implement handshake")

/-- Stub: `list_flights` returns `Status::unimplemented`. -/
def FlightServiceImpl.list_flights (_svc : FlightServiceImpl)
    (_request : Criteria) : Except Status (List FlightInfo) :=
  .error (Status.unimplemented "Implement list_flights")

/-- Stub: `get_flight_info` returns `Status::unimplemented`. -/
def FlightServiceImpl.get_flight_info (_svc : FlightServiceImpl)
    (_request : FlightDescriptor) : Except Status FlightInfo :=
  .error (Status.unimplemented "Implement get_flight_info")

/-- Stub: `poll_flight_info` returns `Status::unimplemented`. -/
def FlightServiceImpl.poll_flight_info (_svc : FlightServiceImpl)
    (_request : FlightDescriptor) : Except Status PollInfo :=
  .error (Status.unimplemented "Implement poll_flight_info")

/-- Stub: `get_schema` returns `Status::unimplemented`. -/
def FlightServiceImpl.get_schema (_svc : FlightServiceImpl)
    (_request : FlightDescriptor) : Except Status SchemaResult :=
  .error (Status.unimplemented "Implement get_schema")

/-- Stub: `do_put` returns `Status::unimplemented`. -/
def FlightServiceImpl.do_put (_svc : FlightServiceImpl)
    (_request : List FlightFrame) : Except Status (List PutResult) :=
  .error (Status.unimplemented "Implement do_put")

/-- Stub: `do_action` returns `Status::unimplemented`. -/
def FlightServiceImpl.do_action (_svc : FlightServiceImpl)
    (_request : Action) : Except Status (List ActionResult) :=
  .error (Status.unimplemented "Implement do_action")

/-- Stub: `list_actions` returns `Status::unimplemented`. -/
def FlightServiceImpl.list_actions (_svc : FlightServiceImpl)
    (_request : EmptyRequest) : Except Status (List ActionType) :=
  .error (Status.unimplemented "Implement list_actions")

/-- Stub: `do_exchange` returns `Status::unimplemented`. -/
def FlightServiceImpl.do_exchange (_svc : FlightServiceImpl)
    (_request : List FlightFrame) : Except Status (List FlightFrame) :=
  .error (Status.unimplemented "Implement do_exchange")

/-- The startup wiring of `main`: build the large batch and the chunked
sequence from the configured sizes.  `main` unwraps both results and the
chunker may diverge, so construction is `Option`-valued: `none` models a
process that fails to start (or hangs) instead of serving. -/
def mkService (numColumns numRows maxRows : Nat) : Option FlightServiceImpl :=
  match generate_record_batch numColumns numRows,
        generate_record_batches numColumns numRows maxRows with
  | .ok lb, some (.ok cb) => some ⟨lb, cb⟩
  | _, _ => none

/-! ## Helper lemmas -/

/-- `i32cast i` is `i` itself exactly when `i` fits in a signed 32-bit
integer. -/
lemma i32cast_eq_self_iff (i : Nat) : i32cast i = (i : Int) ↔ i < 2 ^ 31 := by
  unfold i32cast
  dsimp only
  split <;> omega

/-- `i32cast` lands in the signed 32-bit range. -/
lemma i32cast_mem_range (i : Nat) : -(2 ^ 31) ≤ i32cast i ∧ i32cast i < 2 ^ 31 := by
  unfold i32cast
  dsimp only
  split <;> omega

/-- `i32cast i` is congruent to `i` modulo `2 ^ 32`: it is the low 32 bits
of `i` reinterpreted as signed. -/
lemma i32cast_emod (i : Nat) : i32cast i % (2 ^ 32 : Int) = (i : Int) % 2 ^ 32 := by
  unfold i32cast
  dsimp only
  split <;> omega

/-- Closed form of the builder: `generate_record_batch n m` always succeeds,
returning the positional `Int32` schema, `n` copies of the column
`(0..m).map i32cast`, and row count `m` (`0` when there are no columns to
measure). -/
lemma generate_record_batch_eq (n m : Nat) :
    generate_record_batch n m =
      Except.ok ⟨mkSchema n, List.replicate n ((List.range m).map i32cast),
        if n = 0 then 0 else m⟩ := by
  have hc : (List.range n).map (fun _ => (List.range m).map i32cast)
      = List.replicate n ((List.range m).map i32cast) := by
    rw [List.map_const', List.length_range]
  unfold generate_record_batch RecordBatch.try_new
  rw [hc]
  have hlen : (mkSchema n).fields.length = (List.replicate n ((List.range m).map i32cast)).length := by
    simp [mkSchema]
  rw [if_neg (by simp [hlen])]
  cases n with
  | zero => rfl
  | succ k =>
    rw [List.replicate_succ]
    have hall : ((List.range m).map i32cast :: List.replicate k ((List.range m).map i32cast)).all
        (fun c => c.length = ((((List.range m).map i32cast ::
          List.replicate k ((List.range m).map i32cast)).head?).map List.length).getD 0) = true := by
      simp only [List.all_eq_true, List.head?_cons, Option.map_some', Option.getD_some]
      intro c hc
      rcases List.mem_cons.mp hc with h | h
      · simp [h]
      · simp [(List.mem_replicate.mp h).2]
    rw [if_pos hall]
    simp

/-- The row count the builder stores is the requested one whenever there is
at least one column. -/
lemma generate_record_batch_numRows (n m : Nat) (hn : 1 ≤ n) :
    generate_record_batch n m =
      Except.ok ⟨mkSchema n, List.replicate n ((List.range m).map i32cast), m⟩ := by
  rw [generate_record_batch_eq, if_neg (by omega)]

/-- Full specification of the chunker loop for a positive column count and a
positive row bound: with fuel at least `remaining` it terminates, its row
counts sum to `remaining` and are bounded by `maxRows`, every batch carries
the positional schema and consistent column lengths, the number of batches
is the ceiling `(remaining + maxRows - 1) / maxRows`, every batch but the
last is full, and the output is empty only for `remaining = 0`. -/
lemma generateBatchesGo_spec (n mr : Nat) (hn : 1 ≤ n) (hmr : 1 ≤ mr) :
    ∀ fuel r, r ≤ fuel →
      ∃ bs, generateBatchesGo n mr fuel r = some (Except.ok bs) ∧
        (bs.map RecordBatch.numRows).sum = r ∧
        (∀ b ∈ bs, b.numRows ≤ mr) ∧
        (∀ b ∈ bs, b.schema = mkSchema n) ∧
        (∀ b ∈ bs, ∀ c ∈ b.columns, c.length = b.numRows) ∧
        bs.length = (r + mr - 1) / mr ∧
        (∀ i : Nat, ∀ h : i + 1 < bs.length,
          (bs.get ⟨i, Nat.lt_of_succ_lt h⟩).numRows = mr) ∧
        (bs = [] ↔ r = 0) := by
  intro fuel
  induction fuel with
  | zero =>
    intro r hr
    have hr0 : r = 0 := Nat.le_zero.mp hr
    subst hr0
    refine ⟨[], rfl, rfl, by simp, by simp, by simp, ?_, ?_, by simp⟩
    · have : mr - 1 < mr := by omega
      simp [Nat.div_eq_of_lt this]
    · intro i h
      simp at h
  | succ fuel ih =>
    intro r hr
    by_cases hr0 : r = 0
    · subst hr0
      refine ⟨[], rfl, rfl, by simp, by simp, by simp, ?_, ?_, by simp⟩
      · have : mr - 1 < mr := by omega
        simp [Nat.div_eq_of_lt this]
      · intro i h
        simp at h
    · have hbr1 : 1 ≤ min r mr := le_min (by omega) hmr
      have hbrr : min r mr ≤ r := Nat.min_le_left _ _
      obtain ⟨bs', hgo, hsum, hle, hsch, hcols, hlen, hlast, hemp⟩ :=
        ih (r - min r mr) (by omega)
      have hb := generate_record_batch_numRows n (min r mr) hn
      refine ⟨⟨mkSchema n, List.replicate n ((List.range (min r mr)).map i32cast), min r mr⟩ :: bs',
        ?_, ?_, ?_, ?_, ?_, ?_, ?_, ?_⟩
      · show generateBatchesGo n mr (fuel + 1) r = _
        rw [generateBatchesGo, if_neg hr0]
        dsimp only
        rw [hb, hgo]
      · simp only [List.map_cons, List.sum_cons]
        omega
      · intro b hbmem
        rcases List.mem_cons.mp hbmem with h | h
        · rw [h]
          exact Nat.min_le_right _ _
        · exact hle b h
      · intro b hbmem
        rcases List.mem_cons.mp hbmem with h | h
        · rw [h]
        · exact hsch b h
      · intro b hbmem
        rcases List.mem_cons.mp hbmem with h | h
        · subst h
          intro c hcmem
          rw [(List.mem_replicate.mp hcmem).2]
          simp
        · exact hcols b h
      · simp only [List.length_cons, hlen]
        rcases Nat.le_total r mr with hcase | hcase
        · have h1 : min r mr = r := Nat.min_eq_left hcase

          rw [h1, Nat.sub_self]
          have hz : (0 + mr - 1) / mr = 0 := by
            have : mr - 1 < mr := by omega
            simp [Nat.div_eq_of_lt this]
          rw [hz]
          have : (r + mr - 1) / mr = 1 := by
            refine Nat.div_eq_of_lt_le (by omega) (by omega)
          omega
        · have h1 : min r mr = mr := Nat.min_eq_right hcase
          rw [h1]
          have he : r + mr - 1 = (r - 1) + mr := by omega
          have he2 : r - mr + mr - 1 = (r - mr - 1) + mr ∨ (r = mr) := by omega
          rcases Nat.lt_or_ge mr r with hlt | hge
          · have hA : (r - mr + mr - 1) / mr = (r - mr - 1) / mr + 1 := by
              rw [show r - mr + mr - 1 = (r - mr - 1) + mr from by omega]
              exact Nat.add_div_right _ (by omega)
            have hB : (r + mr - 1) / mr = (r - 1) / mr + 1 := by
              rw [he]
              exact Nat.add_div_right _ (by omega)
            rw [hA, hB]
            have : r - mr - 1 + mr = r - 1 := by omega
            rw [show (r - 1) = (r - mr - 1) + mr from by omega,
              Nat.add_div_right _ (by omega)]
          · have hrm : r = mr := by omega
            subst hrm
            rw [Nat.sub_self]
            have hz : (0 + r - 1) / r = 0 := by
              have : r - 1 < r := by omega
              simp [Nat.div_eq_of_lt this]
            rw [hz]
            have : (r + r - 1) / r = 1 :=
              Nat.div_eq_of_lt_le (by omega) (by omega)
            omega
      · intro i h
        cases i with
        | zero =>
          have hbs' : bs' ≠ [] := by
            intro hnil
            rw [hnil] at h
            simp at h
          have hrr : r - min r mr ≠ 0 := fun hz => hbs' (hemp.mpr hz)
          have : min r mr = mr := by omega
          simp [List.get, this]
        | succ j =>
          rw [List.get_cons_succ]
          exact hlast j (by simpa using h)
      · simp [hr0]

/-! ## Claim theorems -/

/-- C1: for every `totalRows ≥ 0` and `maxRowsPerBatch ≥ 1` (and a positive
column count, as configured — `NUM_COLUMNS` is a positive integer), the
chunker `generate_record_batches` succeeds with a sequence of batches whose
row counts sum exactly to `totalRows`, each row count `≤ maxRowsPerBatch`,
containing exactly `ceil(totalRows / maxRowsPerBatch)` batches, empty iff
`totalRows = 0`. -/
theorem chunker_sum_bound_count (n t mr : Nat) (hn : 1 ≤ n) (hmr : 1 ≤ mr) :
    ∃ bs, generate_record_batches n t mr = some (Except.ok bs) ∧
      (bs.map RecordBatch.numRows).sum = t ∧
      (∀ b ∈ bs, b.numRows ≤ mr) ∧
      bs.length = (t + mr - 1) / mr ∧
      (bs = [] ↔ t = 0) := by
  obtain ⟨bs, hgo, hsum, hle, _, _, hlen, _, hemp⟩ :=
    generateBatchesGo_spec n mr hn hmr t t le_rfl
  exact ⟨bs, hgo, hsum, hle, hlen, hemp⟩

/-- Witness for C1 at `NUM_COLUMNS = 2`, `totalRows = 5`,
`maxRowsPerBatch = 3`. -/
theorem chunker_sum_bound_count_witness :
    ∃ bs, generate_record_batches 2 5 3 = some (Except.ok bs) ∧
      (bs.map RecordBatch.numRows).sum = 5 ∧
      (∀ b ∈ bs, b.numRows ≤ 3) ∧
      bs.length = (5 + 3 - 1) / 3 ∧
      (bs = [] ↔ 5 = 0) :=
  chunker_sum_bound_count 2 5 3 (by decide) (by decide)

/-- C2: with `maxRowsPerBatch = 0` and a positive row total the chunker
loop never terminates — no amount of fuel makes it produce a result — so
the process hangs at startup instead of rejecting the configuration; there
is no `ConfigurationError` path in the code. -/
theorem chunker_maxRows_zero_diverges (n t : Nat) (ht : 0 < t) :
    (∀ fuel, generateBatchesGo n 0 fuel t = none) ∧
    generate_record_batches n t 0 = none ∧
    mkService n t 0 = none := by
  have hgo : ∀ fuel r, 0 < r → generateBatchesGo n 0 fuel r = none := by
    intro fuel
    induction fuel with
    | zero =>
      intro r hr
      rw [generateBatchesGo, if_neg (by omega)]
    | succ fuel ih =>
      intro r hr
      rw [generateBatchesGo, if_neg (by omega)]
      dsimp only
      rw [Nat.min_zero, generate_record_batch_eq]
      dsimp only
      rw [Nat.sub_zero, ih r hr]
  refine ⟨fun fuel => hgo fuel t ht, hgo t t ht, ?_⟩
  have h2 : generate_record_batches n t 0 = none := hgo t t ht
  simp [mkService, h2, generate_record_batch_eq]

/-- Witness for C2 at the default column count and one row. -/
theorem chunker_maxRows_zero_diverges_witness :
    (∀ fuel, generateBatchesGo 30 0 fuel 1 = none) ∧
    generate_record_batches 30 1 0 = none ∧
    mkService 30 1 0 = none :=
  chunker_maxRows_zero_diverges 30 1 (by decide)

/-- C8: the builder never fails — `generate_record_batch` returns `ok` for
every column count and row count, its schema-construction-error branch being
unreachable. -/
theorem builder_never_fails (n m : Nat) :
    ∃ b, generate_record_batch n m = Except.ok b :=
  ⟨_, generate_record_batch_eq n m⟩

/-- C9: every batch of a chunked dataset (positive column count, positive
row bound) carries the identical schema derived from the column count, every
column's element count equals its batch's row count, and every batch except
possibly the last has exactly `maxRowsPerBatch` rows. -/
theorem dataset_batch_invariants (n t mr : Nat) (hn : 1 ≤ n) (hmr : 1 ≤ mr) :
    ∃ bs, generate_record_batches n t mr = some (Except.ok bs) ∧
      (∀ b ∈ bs, b.schema = mkSchema n) ∧
      (∀ b ∈ bs, ∀ c ∈ b.columns, c.length = b.numRows) ∧
      (∀ i : Nat, ∀ h : i + 1 < bs.length,
        (bs.get ⟨i, Nat.lt_of_succ_lt h⟩).numRows = mr) := by
  obtain ⟨bs, hgo, _, _, hsch, hcols, _, hlast, _⟩ :=
    generateBatchesGo_spec n mr hn hmr t t le_rfl
  exact ⟨bs, hgo, hsch, hcols, hlast⟩

/-- Witness for C9 at `NUM_COLUMNS = 2`, `totalRows = 5`,
`maxRowsPerBatch = 3`. -/
theorem dataset_batch_invariants_witness :
    ∃ bs, generate_record_batches 2 5 3 = some (Except.ok bs) ∧
      (∀ b ∈ bs, b.schema = mkSchema 2) ∧
      (∀ b ∈ bs, ∀ c ∈ b.columns, c.length = b.numRows) ∧
      (∀ i : Nat, ∀ h : i + 1 < bs.length,
        (bs.get ⟨i, Nat.lt_of_succ_lt h⟩).numRows = 3) :=
  dataset_batch_invariants 2 5 3 (by decide) (by decide)

/-- C10: the value the builder stores at row index `i` is `i` cast to a
signed 32-bit integer with two's-complement wraparound: it is congruent to
`i` modulo `2 ^ 32`, lies in `[-2 ^ 31, 2 ^ 31)`, equals `i` itself exactly
when `i < 2 ^ 31`, and for `rowCount ≤ 2 ^ 31` every column entry is exactly
its index. -/
theorem builder_value_twos_complement (n m i : Nat) (hn : 1 ≤ n) (hi : i < m) :
    ∃ b, generate_record_batch n m = Except.ok b ∧
      (∀ cl ∈ b.columns, cl[i]? = some (i32cast i)) ∧
      i32cast i % (2 ^ 32 : Int) = (i : Int) % 2 ^ 32 ∧
      -(2 ^ 31) ≤ i32cast i ∧ i32cast i < 2 ^ 31 ∧
      (i32cast i = (i : Int) ↔ i < 2 ^ 31) ∧
      (m ≤ 2 ^ 31 → ∀ cl ∈ b.columns, cl[i]? = some ((i : Int))) := by
  refine ⟨_, generate_record_batch_numRows n m hn, ?_, i32cast_emod i,
    (i32cast_mem_range i).1, (i32cast_mem_range i).2, i32cast_eq_self_iff i, ?_⟩
  · intro cl hc
    rw [(List.mem_replicate.mp hc).2, List.getElem?_map, List.getElem?_range hi]
    rfl
  · intro hm cl hc
    rw [(List.mem_replicate.mp hc).2, List.getElem?_map, List.getElem?_range hi,
      Option.map_some', (i32cast_eq_self_iff i).mpr (by omega)]

/-- Witness for C10 at one column, five rows, index three. -/
theorem builder_value_twos_complement_witness :
    ∃ b, generate_record_batch 1 5 = Except.ok b ∧
      (∀ cl ∈ b.columns, cl[3]? = some (i32cast 3)) ∧
      i32cast 3 % (2 ^ 32 : Int) = (3 : Int) % 2 ^ 32 ∧
      -(2 ^ 31) ≤ i32cast 3 ∧ i32cast 3 < 2 ^ 31 ∧
      (i32cast 3 = (3 : Int) ↔ 3 < 2 ^ 31) ∧
      (5 ≤ 2 ^ 31 → ∀ cl ∈ b.columns, cl[3]? = some ((3 : Int))) :=
  builder_value_twos_complement 1 5 3 (by decide) (by decide)

/-- The Builder claim exactly as the spec words it, stated for comparison
with the source: for every non-negative `columnCount` and `rowCount` the
builder succeeds with a batch whose schema has `columnCount` positional
non-nullable `Int32` fields and whose every column holds exactly the values
`0, 1, 2, …, rowCount - 1` in order. -/
def builderSpecClaim : Prop :=
  ∀ n m : Nat, ∃ b, generate_record_batch n m = Except.ok b ∧
    b.schema.fields.length = n ∧
    (∀ i : Nat, i < n → b.schema.fields[i]? =
      some ⟨"col" ++ toString i, DataType.int32, false⟩) ∧
    b.columns.length = n ∧
    (∀ cl ∈ b.columns, cl = (List.range m).map (fun j : Nat => (j : Int)))

/-- C3 counterexample: at `columnCount = 1`, `rowCount = 2 ^ 31 + 1` the
column entry at index `2 ^ 31` is the wrapped value `-(2 ^ 31)`, not the
index itself, so the claim as stated (exact values `0..rowCount-1` for every
non-negative `rowCount`) is false. -/
theorem builder_exact_values_counterexample :
    generate_record_batch 1 (2 ^ 31 + 1) =
      Except.ok ⟨mkSchema 1, [(List.range (2 ^ 31 + 1)).map i32cast], 2 ^ 31 + 1⟩ ∧
    ((List.range (2 ^ 31 + 1)).map i32cast)[2 ^ 31]? = some (-(2 ^ 31) : Int) ∧
    ((List.range (2 ^ 31 + 1)).map (fun j : Nat => (j : Int)))[2 ^ 31]? =
      some ((2 ^ 31 : Nat) : Int) ∧
    ¬ builderSpecClaim := by
  have h1 : generate_record_batch 1 (2 ^ 31 + 1) =
      Except.ok ⟨mkSchema 1, [(List.range (2 ^ 31 + 1)).map i32cast], 2 ^ 31 + 1⟩ := by
    have h := generate_record_batch_numRows 1 (2 ^ 31 + 1) (by omega)
    rwa [List.replicate_one] at h
  have h2 : ((List.range (2 ^ 31 + 1)).map i32cast)[2 ^ 31]? = some (-(2 ^ 31) : Int) := by
    rw [List.getElem?_map, List.getElem?_range (by omega), Option.map_some']
    norm_num [i32cast]
  have h3 : ((List.range (2 ^ 31 + 1)).map (fun j : Nat => (j : Int)))[2 ^ 31]? =
      some ((2 ^ 31 : Nat) : Int) := by
    rw [List.getElem?_map, List.getElem?_range (by omega), Option.map_some']
  refine ⟨h1, h2, h3, ?_⟩
  intro hclaim
  obtain ⟨b, heq, _, _, _, hcols⟩ := hclaim 1 (2 ^ 31 + 1)
  rw [h1] at heq
  injection heq with hb
  subst hb
  have hmem : (List.range (2 ^ 31 + 1)).map i32cast ∈
      (⟨mkSchema 1, [(List.range (2 ^ 31 + 1)).map i32cast], 2 ^ 31 + 1⟩ :
        RecordBatch).columns := by
    simp
  have hcol := hcols _ hmem
  rw [hcol, h3] at h2
  norm_num at h2

/-- C3 amended: for every `columnCount` and every `rowCount ≤ 2 ^ 31` (the
range in which the `i as i32` cast is exact) the builder succeeds with the
positional non-nullable `Int32` schema and every column holding exactly
`0, 1, 2, …, rowCount - 1` in order, identical in every column. -/
theorem builder_correct_bounded (n m : Nat) (hm : m ≤ 2 ^ 31) :
    ∃ b, generate_record_batch n m = Except.ok b ∧
      b.schema.fields.length = n ∧
      (∀ i : Nat, i < n → b.schema.fields[i]? =
        some ⟨"col" ++ toString i, DataType.int32, false⟩) ∧
      b.columns.length = n ∧
      (∀ cl ∈ b.columns, cl = (List.range m).map (fun j : Nat => (j : Int))) := by
  refine ⟨_, generate_record_batch_eq n m, by simp [mkSchema], ?_, by simp, ?_⟩
  · intro i hi
    simp [mkSchema, List.getElem?_map, List.getElem?_range hi]
  · intro cl hc
    rw [(List.mem_replicate.mp hc).2]
    refine List.map_congr_left ?_
    intro j hj
    have hj31 : j < 2 ^ 31 := by
      have := List.mem_range.mp hj
      omega
    exact (i32cast_eq_self_iff j).mpr hj31

/-- Witness for the amended C3 at two columns and three rows. -/
theorem builder_correct_bounded_witness :
    ∃ b, generate_record_batch 2 3 = Except.ok b ∧
      b.schema.fields.length = 2 ∧
      (∀ i : Nat, i < 2 → b.schema.fields[i]? =
        some ⟨"col" ++ toString i, DataType.int32, false⟩) ∧
      b.columns.length = 2 ∧
      (∀ cl ∈ b.columns, cl = (List.range 3).map (fun j : Nat => (j : Int))) :=
  builder_correct_bounded 2 3 (by norm_num)

/-- C4: the `do_get` stream is the schema-description frame followed by the
data frames of the chunked batches in exactly the dataset's order; at
`NUM_COLUMNS = 2`, `NUM_ROWS = 5`, `MAX_ROWS = 3` the dataset is a 3-row
batch then a 2-row batch (columns `col0`, `col1`, values `[0,1,2]` and
`[0,1]`), and the stream is the schema frame, batch A's frame, batch B's
frame, and completion. -/
theorem do_get_stream_order :
    (∀ (svc : FlightServiceImpl) (t : Ticket),
      svc.do_get t = Except.ok (FlightFrame.schemaFrame svc.large_batch.schema ::
        (svc.chunked_bathes.map (fun b => b.slice 0 b.numRows)).map
          FlightFrame.dataFrame)) ∧
    (∃ svc, mkService 2 5 3 = some svc ∧
      svc.chunked_bathes =
        [⟨mkSchema 2, [[0, 1, 2], [0, 1, 2]], 3⟩,
         ⟨mkSchema 2, [[0, 1], [0, 1]], 2⟩] ∧
      ∀ t : Ticket, svc.do_get t =
        Except.ok [FlightFrame.schemaFrame (mkSchema 2),
          FlightFrame.dataFrame ⟨mkSchema 2, [[0, 1, 2], [0, 1, 2]], 3⟩,
          FlightFrame.dataFrame ⟨mkSchema 2, [[0, 1], [0, 1]], 2⟩]) := by
  refine ⟨fun svc t => rfl, ?_⟩
  refine ⟨⟨⟨mkSchema 2, [[0, 1, 2, 3, 4], [0, 1, 2, 3, 4]], 5⟩,
    [⟨mkSchema 2, [[0, 1, 2], [0, 1, 2]], 3⟩,
     ⟨mkSchema 2, [[0, 1], [0, 1]], 2⟩]⟩, ?_, rfl, fun t => rfl⟩
  rfl

/-- C5: each of the nine non-retrieval verbs returns the distinguishable
`unimplemented` status and nothing else — no frames, no batches; the
handlers take the service state immutably and return only the error. -/
theorem stub_verbs_unimplemented :
    ∀ (svc : FlightServiceImpl) (hr : List HandshakeRequest) (cr : Criteria)
      (fd1 fd2 fd3 : FlightDescriptor) (pd : List FlightFrame) (ac : Action)
      (er : EmptyRequest) (ex : List FlightFrame),
      svc.handshake hr = Except.error (Status.unimplemented "Implement handshake") ∧
      svc.list_flights cr = Except.error (Status.unimplemented "Implement list_flights") ∧
      svc.get_flight_info fd1 = Except.error (Status.unimplemented "Implement get_flight_info") ∧
      svc.poll_flight_info fd2 = Except.error (Status.unimplemented "Implement poll_flight_info") ∧
      svc.get_schema fd3 = Except.error (Status.unimplemented "Implement get_schema") ∧
      svc.do_put pd = Except.error (Status.unimplemented "Implement do_put") ∧
      svc.do_action ac = Except.error (Status.unimplemented "Implement do_action") ∧
      svc.list_actions er = Except.error (Status.unimplemented "Implement list_actions") ∧
      svc.do_exchange ex = Except.error (Status.unimplemented "Implement do_exchange") ∧
      (∀ m1 m2 : String, (Status.unimplemented m1).code ≠ (Status.internal m2).code) ∧
      (∀ m1 : String, (Status.unimplemented m1).code ≠ StatusCode.ok) := by
  intro svc hr cr fd1 fd2 fd3 pd ac er ex
  refine ⟨rfl, rfl, rfl, rfl, rfl, rfl, rfl, rfl, rfl, ?_, ?_⟩
  · intro m1 m2 h
    simp [Status.unimplemented, Status.internal] at h
  · intro m1 h
    simp [Status.unimplemented] at h

/-- C6: `do_get` succeeds on every ticket and its output is independent of
the ticket's contents. -/
theorem do_get_ticket_independent :
    ∀ (svc : FlightServiceImpl) (t1 t2 : Ticket),
      svc.do_get t1 = svc.do_get t2 ∧
      ∃ frames, svc.do_get t1 = Except.ok frames :=
  fun _ _ _ => ⟨rfl, ⟨_, rfl⟩⟩

/-- C7: with `NUM_ROWS = 0` the dataset has zero batches and `do_get`
yields a valid stream holding only the schema frame, for every column count,
row bound and ticket. -/
theorem do_get_zero_rows (n mr : Nat) (t : Ticket) :
    ∃ svc, mkService n 0 mr = some svc ∧
      svc.chunked_bathes = [] ∧
      svc.do_get t = Except.ok [FlightFrame.schemaFrame (mkSchema n)] := by
  have h1 : generate_record_batch n 0 = Except.ok ⟨mkSchema n, List.replicate n [], 0⟩ := by
    have h := generate_record_batch_eq n 0
    simpa using h
  have h2 : generate_record_batches n 0 mr = some (Except.ok []) := rfl
  refine ⟨⟨⟨mkSchema n, List.replicate n [], 0⟩, []⟩, ?_, rfl, rfl⟩
  simp [mkService, h1, h2]

end FlightRs
